import Mathlib

/-!
Verification of the tree-menu rendering core (`tree_menu` Django app).

The embedded code lives in:
  * `src/tree_menu/models.py` — `MenuItem` record shape and `MenuItem.get_url`;
  * `src/tree_menu/templatetags/menu_tags.py` — `draw_menu`, `build_menu_tree`,
    `find_active_item`, `get_active_path`, `render_menu_level`.

Modelling conventions:
  * A `MenuItem` row carries its numeric id, the raw foreign-key column
    `parent_id` (`Option Nat`, `none` for root items), `title`, explicit `url`,
    `named_url` and integer sort `order`.  The owning-menu id plays no role in
    the embedded logic and is omitted.
  * Django's named-route resolver `reverse` is an external collaborator,
    modelled as a function `resolve : String → Option String`; `none` stands
    for a `NoReverseMatch` failure, which `get_url` catches.
  * The database's parent relation is a map `parentOf : Nat → Option Nat`
    giving each row's `parent_id` column.  `select_related('parent')` caches
    exactly one level of the parent chain on each fetched instance; accessing
    `.parent` on an instance obtained through that cache issues one fresh
    query when its `parent_id` is non-null, and no query when it is null.
    The query-counting model below encodes exactly this.
  * The `while` loop of `get_active_path` has no termination guarantee in the
    source, so it is embedded with an explicit fuel parameter; the value
    `none` means the loop has not finished within the given fuel, and
    non-termination is the statement that every fuel amount yields `none`.
  * Python string truthiness (`if self.named_url:`) is emptiness testing.
-/

/-- Shape of one `MenuItem` row as the rendering core sees it:
id, raw parent foreign-key column, title, explicit URL, named URL, sort order. -/
structure MenuItem where
  id : Nat
  parent_id : Option Nat
  title : String
  url : String
  named_url : String
  order : Int
deriving DecidableEq, Repr

/-- Embedding of `MenuItem.get_url` (models.py lines 106-125): if `named_url`
is non-empty, try the route resolver and return its result on success; on
failure fall through; then return `url` if non-empty, else the placeholder. -/
def get_url (resolve : String → Option String) (item : MenuItem) : String :=
  if item.named_url ≠ "" then
    match resolve item.named_url with
    | some p => p
    | none => if item.url ≠ "" then item.url else "#"
  else if item.url ≠ "" then item.url else "#"

/-- Embedding of `find_active_item` (menu_tags.py lines 94-111): scan the
items in order and return the first whose resolved URL equals
`current_path`, or `none`. -/
def find_active_item (resolve : String → Option String)
    (menu_items : List MenuItem) (current_path : String) : Option MenuItem :=
  menu_items.find? (fun item => get_url resolve item = current_path)

/-- Embedding of lines 44-45 of `draw_menu`: the current path is the request
path when a request is in the template context, and the empty string when
no request is available. -/
def current_path_of (request : Option String) : String :=
  match request with
  | some p => p
  | none => ""

/-- Embedding of `build_menu_tree` (menu_tags.py lines 72-91).  The Python
dict `{parent_id: [children…]}` is modelled as the total lookup function that
`menu_dict.get(parent_id, [])` realises: each item is appended to the bucket
of its own `parent_id`, in input order. -/
def build_menu_tree (menu_items : List MenuItem) : Option Nat → List MenuItem :=
  menu_items.foldl
    (fun menu_dict item => fun k =>
      if k = item.parent_id then menu_dict k ++ [item] else menu_dict k)
    (fun _ => [])

/-- Embedding of the body of `get_active_path` (menu_tags.py lines 132-137):
`current` starts at the active item and repeatedly moves to the parent,
inserting every visited id into the result set.  The source loop has no
guard, so the embedding spends one unit of fuel per iteration and returns
`none` when the loop is still running at fuel exhaustion. -/
def get_active_path_aux (parentOf : Nat → Option Nat) :
    Nat → Option Nat → Finset ℕ → Option (Finset ℕ)
  | _, none, path => some path
  | 0, some _, _ => none
  | fuel + 1, some i, path => get_active_path_aux parentOf fuel (parentOf i) (insert i path)

/-- Termination of the `get_active_path` loop started at the item with id
`start`: some amount of fuel suffices for the walk to finish. -/
def get_active_path_terminates (parentOf : Nat → Option Nat) (start : Nat) : Prop :=
  ∃ fuel, (get_active_path_aux parentOf fuel (some start) ∅).isSome

/-- Advance one step along the parent chain, staying at `none` once past a
root; iterating this function describes the ids that the loop of
`get_active_path` visits. -/
def step_parent (parentOf : Nat → Option Nat) : Option Nat → Option Nat
  | none => none
  | some i => parentOf i

/-- Return value of the `draw_menu` template tag: the produced markup together
with the flag that `mark_safe` sets.  The early-exit branch returns a plain
(unsafe) string, the normal branch a safe one. -/
structure TagOutput where
  html : String
  is_safe : Bool
deriving DecidableEq

/-- Embedding of Django's `mark_safe`: the content is unchanged, only the
safe flag is set. -/
def mark_safe (s : String) : TagOutput :=
  ⟨s, true⟩

/-- Embedding of the body of the `for item in items` loop of
`render_menu_level` (menu_tags.py lines 169-208), given the already rendered
markup `children_html` of the item's subtree: compute `is_active`
(`active_item and item.id == active_item.id`), the css class, and
`should_show` (`is_in_path or is_child_of_active`); emit the list entry with
its anchor, followed by the subtree — bare when it is to be shown, wrapped in
the hidden `div` otherwise, and absent only when the subtree markup is
empty. -/
def item_entry (resolve : String → Option String) (active_item : Option MenuItem)
    (active_path : Finset ℕ) (item : MenuItem) (children_html : String) : String :=
  let is_active : Bool :=
    match active_item with
    | some a => item.id == a.id
    | none => false
  let css_class := if is_active then "active" else ""
  let should_show : Bool :=
    decide (item.id ∈ active_path) ||
      (match active_item with
       | some a => item.parent_id == some a.id
       | none => false)
  ("  <li class=\"" ++ css_class ++ "\">\n")
    ++ ("    <a href=\"" ++ get_url resolve item ++ "\">" ++ item.title ++ "</a>\n")
    ++ (if children_html = "" then ""
        else if should_show then children_html
        else "<div style=\"display:none;\">\n" ++ children_html ++ "</div>\n")
    ++ "  </li>\n"

/-- Embedding of `render_menu_level` (menu_tags.py lines 140-211): look up the
bucket of `parent_id`; when empty return the empty string; otherwise open the
level's list container, append one `item_entry` per item in bucket order with
the recursively rendered subtree, and close the container.  The recursion is
paid for with fuel; the source recursion always terminates on trees built by
`build_menu_tree` from a root bucket, and the theorems below supply
sufficient fuel. -/
def render_menu_level (menu_dict : Option Nat → List MenuItem)
    (resolve : String → Option String) :
    Nat → Option Nat → Option MenuItem → Finset ℕ → Nat → String
  | 0, _, _, _, _ => ""
  | fuel + 1, parent_id, active_item, active_path, level =>
    let items := menu_dict parent_id
    if items = [] then ""
    else
      (items.foldl
        (fun html item =>
          html ++ item_entry resolve active_item active_path item
            (render_menu_level menu_dict resolve fuel (some item.id) active_item
              active_path (level + 1)))
        ("<ul class=\"menu-level-" ++ toString level ++ "\">\n"))
      ++ "</ul>\n"

/-- Embedding of `draw_menu` (menu_tags.py lines 23-69): read the current path
from the optional request, run the single fetch (its result is the
`menu_items` argument), return the plain empty string when it yields nothing;
otherwise build the tree index, resolve the active item, compute the active
path (whose unguarded loop may diverge — modelled by `none`), render from the
root bucket at level 0 and mark the result safe. -/
def draw_menu (parentOf : Nat → Option Nat) (resolve : String → Option String)
    (fuel : Nat) (menu_items : List MenuItem) (request : Option String) :
    Option TagOutput :=
  let current_path := current_path_of request
  if menu_items = [] then some ⟨"", false⟩
  else
    let menu_dict := build_menu_tree menu_items
    let active_item := find_active_item resolve menu_items current_path
    match active_item with
    | none => some (mark_safe (render_menu_level menu_dict resolve fuel none none ∅ 0))
    | some item =>
      match get_active_path_aux parentOf fuel (some item.id) ∅ with
      | none => none
      | some active_path =>
        some (mark_safe (render_menu_level menu_dict resolve fuel none (some item)
          active_path 0))

/-- Queries issued by the lazy `.parent` accesses of `get_active_path`, from
the instance with id `i` onward, where the parent of `i` is not cached on the
instance (Django's `select_related('parent')` caches only one level):
a null `parent_id` column costs no query, a non-null one costs one query to
load the parent row, whose own parent is again uncached.  Fuel exhaustion
(`none`) corresponds to the loop still running. -/
def lazy_parent_queries (parentOf : Nat → Option Nat) : Nat → Nat → Option Nat
  | 0, i =>
    match parentOf i with
    | none => some 0
    | some _ => none
  | fuel + 1, i =>
    match parentOf i with
    | none => some 0
    | some j => (lazy_parent_queries parentOf fuel j).map (· + 1)

/-- Number of backing-store queries a `draw_menu` call performs.  The initial
queryset evaluation is exactly one query (also when it is empty);
`build_menu_tree`, `find_active_item` and `render_menu_level` touch only
fields already loaded (`parent_id`, `id`, `title`, `url`, `named_url`), so
the only other queries are the lazy parent loads inside `get_active_path`:
the active item's own `.parent` is cached by `select_related('parent')`, and
every later step pays `lazy_parent_queries`. -/
def draw_menu_query_count (parentOf : Nat → Option Nat)
    (resolve : String → Option String) (fuel : Nat)
    (menu_items : List MenuItem) (request : Option String) : Option Nat :=
  if menu_items = [] then some 1
  else
    match find_active_item resolve menu_items (current_path_of request) with
    | none => some 1
    | some item =>
      match parentOf item.id with
      | none => some 1
      | some j => (lazy_parent_queries parentOf fuel j).map (1 + ·)

/-- Level-rendering procedure exactly as §4.5 of the spec words it, for the
refinement comparison with `render_menu_level`: look up the children of
`parent_key` (empty output when there are none); for each child in list
order compute `is_active`, `is_on_ancestor_path`, `is_direct_child_of_active`
and the recursively rendered subtree; a non-empty subtree is rendered visibly
expanded iff `is_on_ancestor_path OR is_direct_child_of_active` and is
otherwise still emitted inside a hidden container; one list container is
emitted per level and one entry per item with the item's title and resolved
link target. -/
def render_level_spec (tree_index : Option Nat → List MenuItem)
    (resolve : String → Option String) :
    Nat → Option Nat → Option MenuItem → Finset ℕ → Nat → String
  | 0, _, _, _, _ => ""
  | fuel + 1, parent_key, active_item, ancestor_ids, depth =>
    let children := tree_index parent_key
    if children = [] then ""
    else
      "<ul class=\"menu-level-" ++ toString depth ++ "\">\n"
        ++ String.join (children.map (fun child =>
            let is_active : Bool :=
              match active_item with
              | some a => child.id == a.id
              | none => false
            let is_on_ancestor_path : Bool := decide (child.id ∈ ancestor_ids)
            let is_direct_child_of_active : Bool :=
              match active_item with
              | some a => child.parent_id == some a.id
              | none => false
            let subtree := render_level_spec tree_index resolve fuel (some child.id)
              active_item ancestor_ids (depth + 1)
            let expanded := is_on_ancestor_path || is_direct_child_of_active
            ("  <li class=\"" ++ (if is_active then "active" else "") ++ "\">\n")
              ++ ("    <a href=\"" ++ get_url resolve child ++ "\">" ++ child.title ++ "</a>\n")
              ++ (if subtree = "" then ""
                  else if expanded then subtree
                  else "<div style=\"display:none;\">\n" ++ subtree ++ "</div>\n")
              ++ "  </li>\n"))
        ++ "</ul>\n"

/-- Total sibling order of §3 of the spec: sort `order` ascending, ties broken
by `id` ascending. -/
def sibling_le (x y : MenuItem) : Prop :=
  x.order < y.order ∨ (x.order = y.order ∧ x.id ≤ y.id)

/-- Bucket keys whose contents can influence a rendering that starts from the
root bucket, relative to a list `live` of item ids: the root-sentinel key and
the keys of live ids. -/
def key_in (live : List Nat) : Option Nat → Prop
  | none => True
  | some i => i ∈ live

/-- Parent relation with a two-cycle between ids 1 and 2, the concrete input
on which the unguarded loop of `get_active_path` runs forever. -/
def cyc_parent : Nat → Option Nat :=
  fun i => if i = 1 then some 2 else if i = 2 then some 1 else none

/-- Parent relation of a four-deep chain 1 ← 2 ← 3 ← 4 (root id 1, leaf
id 4), the failing input for the single-query contract. -/
def chain_parent : Nat → Option Nat :=
  fun i => if i = 4 then some 3 else if i = 3 then some 2 else if i = 2 then some 1 else none

/-- Fetched item set of the four-deep chain root → A → B → C with explicit
URLs, matching `chain_parent`. -/
def chain_items : List MenuItem :=
  [⟨1, none, "root", "/", "", 0⟩,
   ⟨2, some 1, "A", "/a/", "", 0⟩,
   ⟨3, some 2, "B", "/b/", "", 0⟩,
   ⟨4, some 3, "C", "/c/", "", 0⟩]

example : get_url (fun _ => none) ⟨1, none, "t", "/a/", "", 0⟩ = "/a/" := by decide
example : get_url (fun _ => some "/r/") ⟨1, none, "t", "/a/", "home", 0⟩ = "/r/" := by decide
example : get_url (fun _ => none) ⟨1, none, "t", "", "home", 0⟩ = "#" := by decide
example :
    find_active_item (fun _ => none)
      [⟨1, none, "a", "/a/", "", 0⟩, ⟨2, none, "b", "/b/", "", 0⟩] "/b/"
      = some ⟨2, none, "b", "/b/", "", 0⟩ := by decide
example :
    build_menu_tree [⟨1, none, "a", "/a/", "", 0⟩, ⟨2, some 1, "b", "/b/", "", 0⟩] (some 1)
      = [⟨2, some 1, "b", "/b/", "", 0⟩] := by decide
example :
    get_active_path_aux (fun i => if i = 2 then some 1 else none) 3 (some 2) ∅
      = some {1, 2} := by decide

/-! Helper lemmas shared by the claim theorems. -/

/-- Appending strings is unaffected by pulling a prefix out of the
accumulator of a string-building fold. -/
theorem foldl_append_shift {α : Type} (f : α → String) :
    ∀ (l : List α) (s t : String),
      l.foldl (fun h x => h ++ f x) (s ++ t) = s ++ l.foldl (fun h x => h ++ f x) t := by
  intro l
  induction l with
  | nil => intro s t; rfl
  | cons a l ih =>
    intro s t
    simp only [List.foldl_cons]
    rw [String.append_assoc]
    exact ih s (t ++ f a)

/-- Joining a non-empty list of strings peels off the head. -/
theorem string_join_cons (y : String) (m : List String) :
    String.join (y :: m) = y ++ String.join m := by
  show m.foldl (fun h x => h ++ x) ("" ++ y) = y ++ m.foldl (fun h x => h ++ x) ""
  rw [String.empty_append]
  have h := foldl_append_shift (fun x : String => x) m y ""
  rw [String.append_empty] at h
  exact h

/-- String-building folds are joins of the mapped pieces. -/
theorem foldl_append_join {α : Type} (f : α → String) :
    ∀ (l : List α) (s : String),
      l.foldl (fun h x => h ++ f x) s = s ++ String.join (l.map f) := by
  intro l
  induction l with
  | nil => intro s; simp [String.join, String.append_empty]
  | cons a l ih =>
    intro s
    simp only [List.foldl_cons, List.map_cons, string_join_cons]
    rw [ih (s ++ f a), String.append_assoc]

/-- Joining distributes over list append. -/
theorem string_join_append (m n : List String) :
    String.join (m ++ n) = String.join m ++ String.join n := by
  induction m with
  | nil => simp [String.join, String.empty_append]
  | cons y m ih =>
    simp only [List.cons_append, string_join_cons, ih, String.append_assoc]

/-- Successful scans split the list at the first hit: everything before the
returned element fails the predicate. -/
theorem find?_eq_some_split {α : Type} (p : α → Bool) :
    ∀ (l : List α) (a : α), l.find? p = some a →
      ∃ l1 l2, l = l1 ++ a :: l2 ∧ ∀ j ∈ l1, p j = false := by
  intro l
  induction l with
  | nil => intro a h; cases h
  | cons x l ih =>
    intro a h
    by_cases hx : p x
    · rw [List.find?_cons_of_pos _ hx] at h
      cases h
      exact ⟨[], l, rfl, by simp⟩
    · rw [List.find?_cons_of_neg _ hx] at h
      obtain ⟨l1, l2, hsplit, hl1⟩ := ih a h
      refine ⟨x :: l1, l2, by rw [hsplit, List.cons_append], ?_⟩
      intro j hj
      rcases List.mem_cons.mp hj with hjx | hjl
      · subst hjx; exact Bool.eq_false_iff.mpr hx
      · exact hl1 j hjl

/-- Bucket contents of `build_menu_tree`: the bucket of key `k` is exactly
the sublist of items whose `parent_id` column equals `k`, in input order. -/
theorem build_menu_tree_eq_filter (menu_items : List MenuItem) (k : Option Nat) :
    build_menu_tree menu_items k
      = menu_items.filter (fun it => decide (it.parent_id = k)) := by
  have general : ∀ (l : List MenuItem) (acc : Option Nat → List MenuItem),
      (l.foldl
        (fun menu_dict item => fun k' =>
          if k' = item.parent_id then menu_dict k' ++ [item] else menu_dict k')
        acc) k
      = acc k ++ l.filter (fun it => decide (it.parent_id = k)) := by
    intro l
    induction l with
    | nil => intro acc; simp
    | cons x l ih =>
      intro acc
      simp only [List.foldl_cons]
      rw [ih]
      by_cases hx : k = x.parent_id
      · simp [hx, List.filter_cons]
      · have hx' : ¬x.parent_id = k := fun h => hx h.symm
        simp [hx, hx', List.filter_cons]
  simpa using general menu_items (fun _ => [])

/-- Resolved URLs are never the empty string when the route resolver never
produces an empty path (Django's `reverse` always returns at least "/"):
`get_url` yields the resolver's output, a non-empty explicit `url`, or the
placeholder. -/
theorem get_url_ne_empty (resolve : String → Option String)
    (hres : ∀ name p, resolve name = some p → p ≠ "") (item : MenuItem) :
    get_url resolve item ≠ "" := by
  have fallback : (if item.url ≠ "" then item.url else "#") ≠ "" := by
    by_cases hu : item.url = ""
    · rw [if_neg (fun hcon => hcon hu)]
      decide
    · rw [if_pos hu]
      exact hu
  unfold get_url
  by_cases hn : item.named_url = ""
  · rw [if_neg (fun hcon => hcon hn)]
    exact fallback
  · rw [if_pos hn]
    cases hr : resolve item.named_url with
    | some p => exact hres _ _ hr
    | none => exact fallback

/-- C4: for every menu item, `get_url` returns the resolved named route when
`named_url` is non-empty and resolvable; when `named_url` is empty or its
resolution fails it returns the explicit `url` verbatim if that is non-empty
and the placeholder "#" otherwise; resolution failure is modelled as the
resolver returning `none` and is absorbed, never propagated — `get_url` is a
total function into `String`. -/
theorem get_url_resolution (resolve : String → Option String) (item : MenuItem) :
    (∀ p, item.named_url ≠ "" → resolve item.named_url = some p →
      get_url resolve item = p)
    ∧ ((item.named_url = "" ∨ resolve item.named_url = none) →
      get_url resolve item = if item.url ≠ "" then item.url else "#") := by
  constructor
  · intro p hne hres
    simp [get_url, hne, hres]
  · rintro (h | h)
    · simp [get_url, h]
    · by_cases hn : item.named_url ≠ "" <;> simp [get_url, hn, h]

/-- Witness for C4 at concrete inputs: a resolvable named route wins over the
populated explicit URL, and a failing resolution falls back to it. -/
theorem get_url_resolution_witness :
    get_url (fun _ => some "/home/") ⟨1, none, "t", "/x/", "home", 0⟩ = "/home/"
    ∧ get_url (fun _ => none) ⟨1, none, "t", "/x/", "home", 0⟩ = "/x/" := by
  constructor
  · exact (get_url_resolution (fun _ => some "/home/") ⟨1, none, "t", "/x/", "home", 0⟩).1
      "/home/" (by decide) rfl
  · exact ((get_url_resolution (fun _ => none) ⟨1, none, "t", "/x/", "home", 0⟩).2
      (Or.inr rfl)).trans (by decide)

/-- C8: when the single fetch yields zero items (an unrecognized slug
included), `draw_menu` takes the early-return branch: the plain empty string,
produced before any tree building, active-item resolution or rendering, and
no error value. -/
theorem draw_menu_empty_items (parentOf : Nat → Option Nat)
    (resolve : String → Option String) (fuel : Nat) (request : Option String) :
    draw_menu parentOf resolve fuel [] request = some ⟨"", false⟩ := rfl

/-- Loop states of `get_active_path` on `cyc_parent` never leave the cycle
{1, 2}, so no amount of fuel finishes the walk. -/
theorem cyc_parent_aux_none :
    ∀ (fuel c : Nat), (c = 1 ∨ c = 2) → ∀ (path : Finset ℕ),
      get_active_path_aux cyc_parent fuel (some c) path = none := by
  intro fuel
  induction fuel with
  | zero => intro c _ path; rfl
  | succ fuel ih =>
    intro c hc path
    rcases hc with hc | hc <;> subst hc
    · show get_active_path_aux cyc_parent fuel (cyc_parent 1) (insert 1 path) = none
      exact ih 2 (Or.inr rfl) (insert 1 path)
    · show get_active_path_aux cyc_parent fuel (cyc_parent 2) (insert 2 path) = none
      exact ih 1 (Or.inl rfl) (insert 2 path)

/-- Counterexample to C2 as stated: on the concrete two-cycle `cyc_parent`
(item 1's parent is 2 and item 2's parent is 1) the loop of
`get_active_path` started at id 1 never terminates — there is no visited-set
guard in the source. -/
theorem get_active_path_cycle_diverges :
    ¬ get_active_path_terminates cyc_parent 1 := by
  rintro ⟨fuel, hs⟩
  rw [cyc_parent_aux_none fuel 1 (Or.inl rfl) ∅] at hs
  cases hs

/-- C2 as amended: `get_active_path` terminates precisely by walking off the
end of the parent chain — whenever iterating the parent step from the item
reaches a parentless state in `n` steps, fuel `n` completes the loop; on a
cyclic chain (see the counterexample) it never terminates, as the source has
no visited-set guard. -/
theorem get_active_path_terminates_of_reaches_root
    (parentOf : Nat → Option Nat) (start n : Nat)
    (h : (step_parent parentOf)^[n] (some start) = none) :
    get_active_path_terminates parentOf start := by
  have aux : ∀ (m : Nat) (c : Option Nat) (path : Finset ℕ),
      (step_parent parentOf)^[m] c = none →
      (get_active_path_aux parentOf m c path).isSome := by
    intro m
    induction m with
    | zero =>
      intro c path hc
      simp only [Function.iterate_zero, id] at hc
      subst hc
      rfl
    | succ m ih =>
      intro c path hc
      cases c with
      | none => rfl
      | some i =>
        rw [Function.iterate_succ_apply] at hc
        show (get_active_path_aux parentOf m (parentOf i) (insert i path)).isSome
        exact ih (parentOf i) (insert i path) hc
  exact ⟨n, aux n (some start) ∅ h⟩

/-- Witness for the amended C2: the two-step chain 2 → 1 → root terminates. -/
theorem get_active_path_terminates_witness :
    get_active_path_terminates (fun i => if i = 2 then some 1 else none) 2 :=
  get_active_path_terminates_of_reaches_root
    (fun i => if i = 2 then some 1 else none) 2 2 (by decide)

/-- C6: for an active item `c` at the end of the acyclic parent chain
`r ← a ← b ← c` the `get_active_path` loop finishes (any fuel beyond the
four iterations gives the same answer) and returns exactly the id set
{r, a, b, c} — the active item and all its ancestors up to the root; being an
equality of sets, the result contains no id outside the chain, in particular
no sibling id. -/
theorem get_active_path_chain (parentOf : Nat → Option Nat) (r a b c : Nat)
    (hc : parentOf c = some b) (hb : parentOf b = some a)
    (ha : parentOf a = some r) (hr : parentOf r = none) :
    ∀ fuel, get_active_path_aux parentOf (fuel + 4) (some c) ∅
      = some ({r, a, b, c} : Finset ℕ) := by
  intro fuel
  show get_active_path_aux parentOf (fuel + 3) (parentOf c) (insert c ∅) = _
  rw [hc]
  show get_active_path_aux parentOf (fuel + 2) (parentOf b) (insert b (insert c ∅)) = _
  rw [hb]
  show get_active_path_aux parentOf (fuel + 1) (parentOf a)
    (insert a (insert b (insert c ∅))) = _
  rw [ha]
  show get_active_path_aux parentOf fuel (parentOf r)
    (insert r (insert a (insert b (insert c ∅)))) = _
  rw [hr]
  cases fuel <;> rfl

/-- Witness for C6: the chain 1 ← 2 ← 3 ← 4 of `chain_parent` yields the set
{1, 2, 3, 4} when the walk starts at the leaf 4. -/
theorem get_active_path_chain_witness :
    get_active_path_aux chain_parent 4 (some 4) ∅ = some ({1, 2, 3, 4} : Finset ℕ) :=
  get_active_path_chain chain_parent 1 2 3 4 rfl rfl rfl rfl 0

/-- C1 fails on the code: on the four-deep chain with the current path at the
leaf, `draw_menu` performs three backing-store queries, not one — the initial
fetch plus two lazy parent loads inside `get_active_path`, because
`select_related('parent')` caches only the immediate parent and the ancestor
walk navigates instance attributes instead of an in-memory lookup built from
the fetched set.  The count is `some`, so the walk itself finishes; only the
single-query contract is broken. -/
theorem draw_menu_three_queries_on_deep_chain :
    draw_menu_query_count chain_parent (fun _ => none) 10 chain_items (some "/c/")
      = some 3 := by decide

/-- C5: `find_active_item` returns the first item in iteration order whose
resolved URL is string-equal to `current_path` (everything before it fails
the comparison), returns `none` exactly when no item's resolved URL matches,
and — because resolved URLs are never empty when the route resolver never
returns an empty path — returns `none` for the empty current path that an
absent request produces. -/
theorem find_active_item_first_match (resolve : String → Option String)
    (menu_items : List MenuItem) (current_path : String) :
    (∀ item, find_active_item resolve menu_items current_path = some item →
      get_url resolve item = current_path ∧
      ∃ l1 l2, menu_items = l1 ++ item :: l2 ∧
        ∀ j ∈ l1, get_url resolve j ≠ current_path)
    ∧ (find_active_item resolve menu_items current_path = none ↔
      ∀ item ∈ menu_items, get_url resolve item ≠ current_path)
    ∧ ((∀ name p, resolve name = some p → p ≠ "") →
      find_active_item resolve menu_items (current_path_of none) = none) := by
  have key : ∀ (s : String),
      (∀ item, find_active_item resolve menu_items s = some item →
        get_url resolve item = s ∧
        ∃ l1 l2, menu_items = l1 ++ item :: l2 ∧ ∀ j ∈ l1, get_url resolve j ≠ s)
      ∧ (find_active_item resolve menu_items s = none ↔
        ∀ item ∈ menu_items, get_url resolve item ≠ s) := by
    intro s
    constructor
    · intro item hfind
      have hp := List.find?_some hfind
      have hmatch : get_url resolve item = s := by simpa using hp
      refine ⟨hmatch, ?_⟩
      obtain ⟨l1, l2, hsplit, hl1⟩ := find?_eq_some_split _ menu_items item hfind
      exact ⟨l1, l2, hsplit, fun j hj => by simpa using hl1 j hj⟩
    · constructor
      · intro hnone item hitem
        have := List.find?_eq_none.mp hnone item hitem
        simpa using this
      · intro hall
        apply List.find?_eq_none.mpr
        intro item hitem
        simpa using hall item hitem
  refine ⟨(key current_path).1, (key current_path).2, ?_⟩
  intro hres
  apply (key (current_path_of none)).2.mpr
  intro item _
  exact get_url_ne_empty resolve hres item

/-- Witness for C5 at concrete inputs: the first of two items matching "/b/"
is returned with nothing before it matching, a miss yields `none`, and so
does an absent request. -/
theorem find_active_item_first_match_witness :
    (get_url (fun _ => none) ⟨2, none, "b", "/b/", "", 0⟩ = "/b/"
      ∧ ∃ l1 l2,
          [⟨1, none, "a", "/a/", "", 0⟩, ⟨2, none, "b", "/b/", "", 0⟩]
            = l1 ++ (⟨2, none, "b", "/b/", "", 0⟩ : MenuItem) :: l2
          ∧ ∀ j ∈ l1, get_url (fun _ => none) j ≠ "/b/")
    ∧ find_active_item (fun _ => none)
        [⟨1, none, "a", "/a/", "", 0⟩, ⟨2, none, "b", "/b/", "", 0⟩]
        (current_path_of none) = none := by
  constructor
  · exact (find_active_item_first_match (fun _ => none)
      [⟨1, none, "a", "/a/", "", 0⟩, ⟨2, none, "b", "/b/", "", 0⟩] "/b/").1
      ⟨2, none, "b", "/b/", "", 0⟩ (by decide)
  · exact (find_active_item_first_match (fun _ => none)
      [⟨1, none, "a", "/a/", "", 0⟩, ⟨2, none, "b", "/b/", "", 0⟩] "").2.2
      (fun _ p hp => by cases hp)

/-- Unfolding of `render_menu_level` on a non-empty bucket: one list
container for the level wrapping the joined entries of the bucket's items in
bucket order. -/
theorem render_menu_level_succ (menu_dict : Option Nat → List MenuItem)
    (resolve : String → Option String) (fuel : Nat) (parent_id : Option Nat)
    (active_item : Option MenuItem) (active_path : Finset ℕ) (level : Nat)
    (h : menu_dict parent_id ≠ []) :
    render_menu_level menu_dict resolve (fuel + 1) parent_id active_item active_path level
      = "<ul class=\"menu-level-" ++ toString level ++ "\">\n"
        ++ String.join ((menu_dict parent_id).map (fun item =>
            item_entry resolve active_item active_path item
              (render_menu_level menu_dict resolve fuel (some item.id) active_item
                active_path (level + 1))))
        ++ "</ul>\n" := by
  show (if menu_dict parent_id = [] then ""
    else ((menu_dict parent_id).foldl
        (fun html item =>
          html ++ item_entry resolve active_item active_path item
            (render_menu_level menu_dict resolve fuel (some item.id) active_item
              active_path (level + 1)))
        ("<ul class=\"menu-level-" ++ toString level ++ "\">\n"))
      ++ "</ul>\n") = _
  rw [if_neg h, foldl_append_join]

/-- Rendering an empty bucket gives empty output at any fuel. -/
theorem render_menu_level_empty (menu_dict : Option Nat → List MenuItem)
    (resolve : String → Option String) (fuel : Nat) (parent_id : Option Nat)
    (active_item : Option MenuItem) (active_path : Finset ℕ) (level : Nat)
    (h : menu_dict parent_id = []) :
    render_menu_level menu_dict resolve fuel parent_id active_item active_path level = "" := by
  cases fuel with
  | zero => rfl
  | succ fuel =>
    show (if menu_dict parent_id = [] then ""
      else ((menu_dict parent_id).foldl
          (fun html item =>
            html ++ item_entry resolve active_item active_path item
              (render_menu_level menu_dict resolve fuel (some item.id) active_item
                active_path (level + 1)))
          ("<ul class=\"menu-level-" ++ toString level ++ "\">\n"))
        ++ "</ul>\n") = _
    rw [if_pos h]

/-- Joining mapped pieces splits at any designated list element. -/
theorem join_map_decomp {α : Type} (f : α → String) (l l1 l2 : List α) (x : α)
    (h : l = l1 ++ x :: l2) :
    String.join (l.map f)
      = String.join (l1.map f) ++ f x ++ String.join (l2.map f) := by
  subst h
  rw [List.map_append, List.map_cons, string_join_append, string_join_cons,
    String.append_assoc]

/-- C3: `render_menu_level` coincides with the level renderer as §4.5 of the
spec words it — for every tree index, active item and ancestor-id set, a
child's non-empty subtree is emitted visibly expanded exactly when the
child's id is in the ancestor set or the child's parent id equals the active
item's id, every other non-empty subtree is still emitted but wrapped in the
hidden container, and (second conjunct) the output of the root call is never
wrapped: whenever non-empty it starts with the bare level-0 list container,
so the root level is always fully visible. -/
theorem render_menu_level_expansion (menu_dict : Option Nat → List MenuItem)
    (resolve : String → Option String) :
    (∀ fuel parent_id active_item active_path level,
      render_menu_level menu_dict resolve fuel parent_id active_item active_path level
        = render_level_spec menu_dict resolve fuel parent_id active_item active_path level)
    ∧ (∀ fuel parent_id active_item active_path level,
      render_menu_level menu_dict resolve fuel parent_id active_item active_path level = ""
      ∨ ∃ rest,
          render_menu_level menu_dict resolve fuel parent_id active_item active_path level
            = "<ul class=\"menu-level-" ++ toString level ++ "\">\n" ++ rest) := by
  constructor
  · intro fuel
    induction fuel with
    | zero => intro parent_id active_item active_path level; rfl
    | succ fuel ih =>
      intro parent_id active_item active_path level
      by_cases hemp : menu_dict parent_id = []
      · rw [render_menu_level_empty _ _ _ _ _ _ _ hemp]
        show _ = (if menu_dict parent_id = [] then "" else _)
        rw [if_pos hemp]
      · rw [render_menu_level_succ _ _ _ _ _ _ _ hemp]
        show _ = (if menu_dict parent_id = [] then ""
          else "<ul class=\"menu-level-" ++ toString level ++ "\">\n"
            ++ String.join ((menu_dict parent_id).map _) ++ "</ul>\n")
        rw [if_neg hemp]
        have hmap : ∀ item ∈ menu_dict parent_id,
            item_entry resolve active_item active_path item
              (render_menu_level menu_dict resolve fuel (some item.id) active_item
                active_path (level + 1))
            = item_entry resolve active_item active_path item
              (render_level_spec menu_dict resolve fuel (some item.id) active_item
                active_path (level + 1)) := by
          intro item _
          rw [ih (some item.id) active_item active_path (level + 1)]
        rw [List.map_congr_left hmap]
        rfl
  · intro fuel parent_id active_item active_path level
    cases fuel with
    | zero => exact Or.inl rfl
    | succ fuel =>
      by_cases hemp : menu_dict parent_id = []
      · exact Or.inl (render_menu_level_empty _ _ _ _ _ _ _ hemp)
      · refine Or.inr ⟨String.join ((menu_dict parent_id).map (fun item =>
          item_entry resolve active_item active_path item
            (render_menu_level menu_dict resolve fuel (some item.id) active_item
              active_path (level + 1)))) ++ "</ul>\n", ?_⟩
        rw [render_menu_level_succ _ _ _ _ _ _ _ hemp, String.append_assoc]

/-- C7: `build_menu_tree` places each item in exactly one bucket — the bucket
of key `k` is precisely the input's sublist of items whose `parent_id` is `k`
(`none` acting as the no-parent sentinel), in input order (single pass, order
preserving); consequently an input sorted by (order, id) has every bucket
sorted by (order, id); and `render_menu_level` emits the entries of a level
in exactly bucket order, so sorted siblings appear in the output in (order,
id) order. -/
theorem build_menu_tree_buckets (menu_items : List MenuItem) (k : Option Nat) :
    (build_menu_tree menu_items k
      = menu_items.filter (fun it => decide (it.parent_id = k)))
    ∧ (List.Pairwise sibling_le menu_items →
      List.Pairwise sibling_le (build_menu_tree menu_items k))
    ∧ (∀ (resolve : String → Option String) (fuel : Nat)
        (active_item : Option MenuItem) (active_path : Finset ℕ) (level : Nat),
        build_menu_tree menu_items k ≠ [] →
        render_menu_level (build_menu_tree menu_items) resolve (fuel + 1) k
            active_item active_path level
          = "<ul class=\"menu-level-" ++ toString level ++ "\">\n"
            ++ String.join ((build_menu_tree menu_items k).map (fun item =>
                item_entry resolve active_item active_path item
                  (render_menu_level (build_menu_tree menu_items) resolve fuel
                    (some item.id) active_item active_path (level + 1))))
            ++ "</ul>\n") := by
  refine ⟨build_menu_tree_eq_filter _ _, ?_, ?_⟩
  · intro hsorted
    rw [build_menu_tree_eq_filter]
    exact hsorted.filter _
  · intro resolve fuel active_item active_path level hne
    exact render_menu_level_succ _ _ _ _ _ _ _ hne

/-- Witness for C7 at a concrete sorted input: the root bucket of two sibling
items keeps the (order, id) order, and the rendered level lists them in that
same order. -/
theorem build_menu_tree_buckets_witness :
    List.Pairwise sibling_le
      (build_menu_tree
        [⟨1, none, "a", "/a/", "", 0⟩, ⟨2, none, "b", "/b/", "", 0⟩] none)
    ∧ render_menu_level
        (build_menu_tree [⟨1, none, "a", "/a/", "", 0⟩, ⟨2, none, "b", "/b/", "", 0⟩])
        (fun _ => none) 1 none none ∅ 0
      = "<ul class=\"menu-level-0\">\n"
        ++ String.join
            ((build_menu_tree
                [⟨1, none, "a", "/a/", "", 0⟩, ⟨2, none, "b", "/b/", "", 0⟩] none).map
              (fun item =>
                item_entry (fun _ => none) none ∅ item
                  (render_menu_level
                    (build_menu_tree
                      [⟨1, none, "a", "/a/", "", 0⟩, ⟨2, none, "b", "/b/", "", 0⟩])
                    (fun _ => none) 0 (some item.id) none ∅ 1)))
        ++ "</ul>\n" := by
  constructor
  · exact (build_menu_tree_buckets
      [⟨1, none, "a", "/a/", "", 0⟩, ⟨2, none, "b", "/b/", "", 0⟩] none).2.1
      (by simp [sibling_le])
  · exact (build_menu_tree_buckets
      [⟨1, none, "a", "/a/", "", 0⟩, ⟨2, none, "b", "/b/", "", 0⟩] none).2.2
      (fun _ => none) 0 none ∅ 0 (by decide)

/-- Each emitted list entry contains the source's anchor line — resolved URL
and title concatenated into the markup with no escaping — as a contiguous
piece. -/
theorem item_entry_decomp (resolve : String → Option String)
    (active_item : Option MenuItem) (active_path : Finset ℕ) (item : MenuItem)
    (children_html : String) :
    ∃ u v, item_entry resolve active_item active_path item children_html
      = u ++ ("    <a href=\"" ++ get_url resolve item ++ "\">" ++ item.title ++ "</a>\n")
        ++ v := by
  simp only [item_entry]
  exact ⟨_, _, String.append_assoc _ _ _⟩

/-- C10: the markup interpolates each rendered item's title and resolved URL
verbatim — the output of any level containing the item decomposes around the
exact anchor string `<a href="URL">TITLE</a>` with both parts
character-for-character unescaped — and (second conjunct) every output that
`draw_menu` produces from a non-empty item set is passed through `mark_safe`,
so its safe flag is set for direct emission. -/
theorem render_title_unescaped (menu_dict : Option Nat → List MenuItem)
    (resolve : String → Option String) (fuel : Nat) (parent_id : Option Nat)
    (active_item : Option MenuItem) (active_path : Finset ℕ) (level : Nat)
    (item : MenuItem) (hmem : item ∈ menu_dict parent_id) :
    (∃ s t, render_menu_level menu_dict resolve (fuel + 1) parent_id active_item
        active_path level
      = s ++ ("    <a href=\"" ++ get_url resolve item ++ "\">" ++ item.title ++ "</a>\n")
        ++ t)
    ∧ ∀ (parentOf : Nat → Option Nat) (fuel2 : Nat) (menu_items : List MenuItem)
        (request : Option String) (out : TagOutput),
        menu_items ≠ [] →
        draw_menu parentOf resolve fuel2 menu_items request = some out →
        out.is_safe = true := by
  constructor
  · have hne : menu_dict parent_id ≠ [] := List.ne_nil_of_mem hmem
    obtain ⟨l1, l2, hsplit⟩ := List.append_of_mem hmem
    obtain ⟨u, v, hE⟩ := item_entry_decomp resolve active_item active_path item
      (render_menu_level menu_dict resolve fuel (some item.id) active_item
        active_path (level + 1))
    refine ⟨("<ul class=\"menu-level-" ++ toString level ++ "\">\n")
        ++ String.join (l1.map (fun it =>
            item_entry resolve active_item active_path it
              (render_menu_level menu_dict resolve fuel (some it.id) active_item
                active_path (level + 1))))
        ++ u,
      v ++ String.join (l2.map (fun it =>
            item_entry resolve active_item active_path it
              (render_menu_level menu_dict resolve fuel (some it.id) active_item
                active_path (level + 1))))
        ++ "</ul>\n", ?_⟩
    rw [render_menu_level_succ _ _ _ _ _ _ _ hne,
      join_map_decomp _ (menu_dict parent_id) l1 l2 item hsplit, hE]
    simp only [String.append_assoc]
  · intro parentOf fuel2 menu_items request out hne hdraw
    simp only [draw_menu] at hdraw
    rw [if_neg hne] at hdraw
    cases hactive : find_active_item resolve menu_items (current_path_of request) with
    | none =>
      rw [hactive] at hdraw
      cases hdraw
      rfl
    | some it =>
      rw [hactive] at hdraw
      have hdraw2 : (match get_active_path_aux parentOf fuel2 (some it.id) ∅ with
          | none => (none : Option TagOutput)
          | some active_path =>
            some (mark_safe (render_menu_level (build_menu_tree menu_items) resolve
              fuel2 none (some it) active_path 0))) = some out := hdraw
      cases hpath : get_active_path_aux parentOf fuel2 (some it.id) ∅ with
      | none => rw [hpath] at hdraw2; cases hdraw2
      | some path => rw [hpath] at hdraw2; cases hdraw2; rfl

/-- Witness for C10: a title carrying raw markup characters survives
verbatim in the rendered level, and the concrete `draw_menu` output is
flagged safe. -/
theorem render_title_unescaped_witness :
    (∃ s t,
      render_menu_level
        (build_menu_tree [⟨1, none, "<script>alert(1)</script>", "/x/", "", 0⟩])
        (fun _ => none) 1 none none ∅ 0
        = s ++ ("    <a href=\"/x/\"><script>alert(1)</script></a>\n") ++ t)
    ∧ ∀ out, draw_menu (fun _ => none) (fun _ => none) 3
        [⟨1, none, "<script>alert(1)</script>", "/x/", "", 0⟩] none = some out →
        out.is_safe = true := by
  have h := render_title_unescaped
    (build_menu_tree [⟨1, none, "<script>alert(1)</script>", "/x/", "", 0⟩])
    (fun _ => none) 0 none none ∅ 0
    ⟨1, none, "<script>alert(1)</script>", "/x/", "", 0⟩ (by decide)
  constructor
  · exact h.1
  · intro out hdraw
    exact h.2 (fun _ => none) 3 _ none out (by decide) hdraw

/-- Renderings agree whenever the two bucket maps agree on every key the
recursion can consult: the root-sentinel key and the keys of ids `live`,
provided every item found under a consultable key has its id in `live`. -/
theorem render_menu_level_congr (resolve : String → Option String) (live : List Nat)
    (d1 d2 : Option Nat → List MenuItem)
    (hagree : ∀ k, key_in live k → d1 k = d2 k)
    (hclosed : ∀ k, key_in live k → ∀ it ∈ d1 k, it.id ∈ live) :
    ∀ (fuel : Nat) (parent_id : Option Nat) (active_item : Option MenuItem)
      (active_path : Finset ℕ) (level : Nat), key_in live parent_id →
      render_menu_level d1 resolve fuel parent_id active_item active_path level
        = render_menu_level d2 resolve fuel parent_id active_item active_path level := by
  intro fuel
  induction fuel with
  | zero => intro parent_id active_item active_path level _; rfl
  | succ fuel ih =>
    intro parent_id active_item active_path level hk
    by_cases hemp : d1 parent_id = []
    · rw [render_menu_level_empty _ _ _ _ _ _ _ hemp,
        render_menu_level_empty _ _ _ _ _ _ _ ((hagree parent_id hk).symm.trans hemp)]
    · have hemp2 : d2 parent_id ≠ [] := fun h => hemp ((hagree parent_id hk).trans h)
      rw [render_menu_level_succ _ _ _ _ _ _ _ hemp,
        render_menu_level_succ _ _ _ _ _ _ _ hemp2, ← hagree parent_id hk]
      have hmap : ∀ it ∈ d1 parent_id,
          item_entry resolve active_item active_path it
            (render_menu_level d1 resolve fuel (some it.id) active_item active_path
              (level + 1))
          = item_entry resolve active_item active_path it
            (render_menu_level d2 resolve fuel (some it.id) active_item active_path
              (level + 1)) := by
        intro it hit
        rw [ih (some it.id) active_item active_path (level + 1)
          (hclosed parent_id hk it hit)]
      rw [List.map_congr_left hmap]

/-- C9: an item whose non-null `parent_id` matches no id in the fetched set
is silently omitted from the output together with all its descendants — for
any id list `desc` that contains the orphan and whose members all sit in
buckets keyed outside the fetched set's live ids (the orphan under its
dangling key, the descendants under keys in `desc`), the rendering from the
root bucket of the full set is character-for-character the rendering of the
set with all `desc` items deleted; in particular no entry, anchor or title
of the orphan or a descendant appears, hidden or otherwise, and the orphan
never becomes an effective root-level item. -/
theorem orphan_rendered_nowhere (resolve : String → Option String)
    (full : List MenuItem) (orphan : MenuItem) (k0 : Nat) (desc : List Nat)
    (hmem : orphan ∈ full)
    (hpar : orphan.parent_id = some k0)
    (hk0 : ∀ it ∈ full, it.id ≠ k0)
    (hdesc0 : orphan.id ∈ desc)
    (hdangling : ∀ it ∈ full, it.id ∈ desc →
      ∃ j, it.parent_id = some j ∧ (j ∈ desc ∨ ∀ u ∈ full, u.id ≠ j)) :
    orphan ∉ full.filter (fun it => decide (it.id ∉ desc))
    ∧ ∀ (fuel : Nat) (active_item : Option MenuItem) (active_path : Finset ℕ),
        render_menu_level (build_menu_tree full) resolve fuel none active_item
            active_path 0
          = render_menu_level
              (build_menu_tree (full.filter (fun it => decide (it.id ∉ desc))))
              resolve fuel none active_item active_path 0 := by
  have keep : ∀ (k : Option Nat),
      key_in ((full.filter (fun it => decide (it.id ∉ desc))).map MenuItem.id) k →
      ∀ it ∈ full, it.parent_id = k → it.id ∉ desc := by
    intro k hk it hit hpid hd
    obtain ⟨j, hj, hcases⟩ := hdangling it hit hd
    rw [hpid] at hj
    subst hj
    obtain ⟨u, hu, huid⟩ := List.mem_map.mp hk
    have hu2 := List.mem_filter.mp hu
    rcases hcases with hjd | hnid
    · exact (of_decide_eq_true hu2.2) (huid ▸ hjd)
    · exact hnid u hu2.1 huid
  have hagree : ∀ k,
      key_in ((full.filter (fun it => decide (it.id ∉ desc))).map MenuItem.id) k →
      build_menu_tree full k
        = build_menu_tree (full.filter (fun it => decide (it.id ∉ desc))) k := by
    intro k hk
    rw [build_menu_tree_eq_filter, build_menu_tree_eq_filter, List.filter_filter]
    apply List.filter_congr
    intro it hit
    by_cases hpid : it.parent_id = k
    · have := keep k hk it hit hpid
      simp [hpid, this]
    · simp [hpid]
  have hclosed : ∀ k,
      key_in ((full.filter (fun it => decide (it.id ∉ desc))).map MenuItem.id) k →
      ∀ it ∈ build_menu_tree full k,
        it.id ∈ (full.filter (fun it => decide (it.id ∉ desc))).map MenuItem.id := by
    intro k hk it hit
    rw [build_menu_tree_eq_filter] at hit
    have h2 := List.mem_filter.mp hit
    have hpid : it.parent_id = k := of_decide_eq_true h2.2
    have hnd : it.id ∉ desc := keep k hk it h2.1 hpid
    exact List.mem_map.mpr ⟨it, List.mem_filter.mpr ⟨h2.1, decide_eq_true hnd⟩, rfl⟩
  constructor
  · intro hcon
    exact (of_decide_eq_true (List.mem_filter.mp hcon).2) hdesc0
  · intro fuel active_item active_path
    exact render_menu_level_congr resolve _ _ _ hagree hclosed fuel none active_item
      active_path 0 trivial

/-- Witness for C9: a set with a root, an orphan whose parent id 99 matches
nothing, and the orphan's child renders exactly like the set with the orphan
and its child deleted. -/
theorem orphan_rendered_nowhere_witness :
    ((⟨5, some 99, "Orphan", "/o/", "", 0⟩ : MenuItem)
      ∉ ([⟨1, none, "Home", "/", "", 0⟩, ⟨5, some 99, "Orphan", "/o/", "", 0⟩,
          ⟨6, some 5, "Child", "/oc/", "", 0⟩] : List MenuItem).filter
          (fun it => decide (it.id ∉ ([5, 6] : List Nat))))
    ∧ render_menu_level
        (build_menu_tree
          [⟨1, none, "Home", "/", "", 0⟩, ⟨5, some 99, "Orphan", "/o/", "", 0⟩,
           ⟨6, some 5, "Child", "/oc/", "", 0⟩])
        (fun _ => none) 4 none none ∅ 0
      = render_menu_level
          (build_menu_tree
            (([⟨1, none, "Home", "/", "", 0⟩, ⟨5, some 99, "Orphan", "/o/", "", 0⟩,
               ⟨6, some 5, "Child", "/oc/", "", 0⟩] : List MenuItem).filter
              (fun it => decide (it.id ∉ ([5, 6] : List Nat)))))
          (fun _ => none) 4 none none ∅ 0 := by
  have hd : ∀ it ∈ ([⟨1, none, "Home", "/", "", 0⟩, ⟨5, some 99, "Orphan", "/o/", "", 0⟩,
      ⟨6, some 5, "Child", "/oc/", "", 0⟩] : List MenuItem),
      it.id ∈ ([5, 6] : List Nat) →
      ∃ j, it.parent_id = some j ∧ (j ∈ ([5, 6] : List Nat)
        ∨ ∀ u ∈ ([⟨1, none, "Home", "/", "", 0⟩, ⟨5, some 99, "Orphan", "/o/", "", 0⟩,
            ⟨6, some 5, "Child", "/oc/", "", 0⟩] : List MenuItem), u.id ≠ j) := by
    intro it hit hin
    fin_cases hit
    · exact absurd hin (by decide)
    · exact ⟨99, rfl, Or.inr (by decide)⟩
    · exact ⟨5, rfl, Or.inl (by decide)⟩
  have h := orphan_rendered_nowhere (fun _ => none)
    [⟨1, none, "Home", "/", "", 0⟩, ⟨5, some 99, "Orphan", "/o/", "", 0⟩,
     ⟨6, some 5, "Child", "/oc/", "", 0⟩]
    ⟨5, some 99, "Orphan", "/o/", "", 0⟩ 99 [5, 6]
    (by decide) rfl (by decide) (by decide) hd
  exact ⟨h.1, h.2 4 none ∅⟩
